import Mathlib

/-!
Verification of the SVG-to-PNG conversion utility (`svg2png.py`).

The development shallowly embeds the document transformer and the renderer
invoker of `inkscape_convert_svg2png`:

* XML elements become the inductive `Elem` (tag, ordered attribute list,
  children); tags are stored Clark-style (`{uri}local`), as the Python
  `xml.etree.ElementTree` parser produces them.
* The regex substitution `re.sub(r"(?<=fill:)\S+?(?=;)", color, s)` becomes
  the scanner `fillSub`.
* Python float arithmetic on `(1 - 0.7) * dim / 2` is embedded exactly:
  IEEE-754 binary64 values are the rationals fixed by `roundFP`
  (round to nearest, ties to even, 53-bit significand), and `str(float)`
  is the shortest decimal that round-trips (`pyReprFloat`), which is the
  documented behaviour of CPython's float repr.
* The subprocess environment (version-probe output, presence of the
  `inkscape` executable, its exit code) is an explicit `Env` record, and
  `convert` returns the conversion outcome together with the final state
  of the fixed-name temporary file.
-/

/-- A value-level model of an `xml.etree.ElementTree.Element`: tag name
(with the namespace URI expanded in braces), the ordered attribute
dictionary, and the list of child elements. -/
inductive Elem where
  | mk (tag : String) (attrib : List (String × String)) (children : List Elem)

mutual

def elemBeq : Elem → Elem → Bool
  | .mk t a ch, .mk t' a' ch' => t == t' && a == a' && elemsBeq ch ch'

def elemsBeq : List Elem → List Elem → Bool
  | [], [] => true
  | x :: xs, y :: ys => elemBeq x y && elemsBeq xs ys
  | _ :: _, [] => false
  | [], _ :: _ => false

end

mutual

theorem elemBeq_iff : ∀ x y : Elem, elemBeq x y = true ↔ x = y
  | .mk t a ch, .mk t' a' ch' => by
    rw [elemBeq]
    simp only [Bool.and_eq_true, beq_iff_eq, elemsBeq_iff ch ch', Elem.mk.injEq]
    tauto

theorem elemsBeq_iff : ∀ xs ys : List Elem, elemsBeq xs ys = true ↔ xs = ys
  | [], [] => by simp [elemsBeq]
  | [], _ :: _ => by simp [elemsBeq]
  | _ :: _, [] => by simp [elemsBeq]
  | x :: xs, y :: ys => by
    rw [elemsBeq]
    simp only [Bool.and_eq_true, elemBeq_iff x y, elemsBeq_iff xs ys, List.cons.injEq]

end

instance : DecidableEq Elem := fun x y => decidable_of_iff _ (elemBeq_iff x y)

def Elem.tag : Elem → String
  | .mk t _ _ => t

def Elem.attrib : Elem → List (String × String)
  | .mk _ a _ => a

def Elem.children : Elem → List Elem
  | .mk _ _ c => c

/-- Dictionary read on an ordered attribute list: first binding wins (keys
are unique in a parsed document). -/
def attrLookup (a : List (String × String)) (k : String) : Option String :=
  (a.find? (fun p => p.1 == k)).map (fun p => p.2)

/-- Attribute lookup, `element.attrib[key]` read access. -/
def getAttr (e : Elem) (k : String) : Option String :=
  attrLookup e.attrib k

/-- `element.attrib[key] = value`: replace the binding in place when the key
exists, otherwise append a new binding at the end (Python dict semantics). -/
def setAttr (a : List (String × String)) (k v : String) : List (String × String) :=
  if a.any (fun p => p.1 == k) then
    a.map (fun p => if p.1 == k then (k, v) else p)
  else
    a ++ [(k, v)]

/-- `int_ignore_units`: keep the decimal digit characters of the string and
parse them as an integer; `none` models the `ValueError` that `int("")`
raises when no digit is present. -/
def int_ignore_units (s : String) : Option Nat :=
  let ds := s.data.filter Char.isDigit
  if ds.isEmpty then none
  else some (ds.foldl (fun n c => 10 * n + (c.toNat - 48)) 0)

example : int_ignore_units "48px" = some 48 := by decide
example : int_ignore_units "48" = some 48 := by decide
example : int_ignore_units "px" = none := by decide

/-! ## The fill-recoloring regex

`re.sub(r"(?<=fill:)\S+?(?=;)", color, s)` scans `s` left to right.  At a
position whose five preceding characters are `fill:`, the lazy `\S+?(?=;)`
matches the shortest non-empty run of non-whitespace characters that is
followed by a `;`; the run is replaced by `color` and scanning resumes at
the lookahead semicolon.  Everywhere else the character is copied. -/

/-- Python's regex whitespace class `\s` restricted to ASCII (the strings
handled here are ASCII). -/
def pyIsSpace (c : Char) : Bool :=
  c = ' ' || c = '\t' || c = '\n' || c = '\x0d' || c = '\x0b' || c = '\x0c'

/-- Length of the lazy match `\S+?(?=;)` at the start of `cs` (index `i`
is the number of characters already accepted): the smallest `k ≥ 1` such
that the character at index `k` is `;` and the `k` characters before it are
non-whitespace. -/
def matchLenAux : List Char → Nat → Option Nat
  | [], _ => none
  | c :: rest, i =>
    if 1 ≤ i ∧ c = ';' then some i
    else if pyIsSpace c then none
    else matchLenAux rest (i + 1)

/-- One left-to-right pass of `re.sub(r"(?<=fill:)\S+?(?=;)", color, s)`.
`prev` holds the already-scanned characters of the original string in
reverse (the regex lookbehind window), `rest` the characters still to scan.
The fuel starts at `rest.length`; every step consumes at least one
character, so it never runs out. -/
def fillSubAux (color : List Char) : Nat → List Char → List Char → List Char
  | 0, _, _ => []
  | _ + 1, _, [] => []
  | fuel + 1, prev, c :: rest =>
    if prev.take 5 = [':', 'l', 'l', 'i', 'f'] then
      match matchLenAux (c :: rest) 0 with
      | some k =>
          color ++ fillSubAux color fuel
            (((c :: rest).take k).reverse ++ prev) ((c :: rest).drop k)
      | none => c :: fillSubAux color fuel (c :: prev) rest
    else
      c :: fillSubAux color fuel (c :: prev) rest

/-- `re.sub(r"(?<=fill:)\S+?(?=;)", color, s)`. -/
def fillSub (color s : String) : String :=
  ⟨fillSubAux color.data s.data.length [] s.data⟩

example : fillSub "#FFFFFF" "fill:red;stroke:blue;" = "fill:#FFFFFF;stroke:blue;" := by decide
example : fillSub "#FFFFFF" "stroke:red;" = "stroke:red;" := by decide
example : fillSub "#FFFFFF" "fill:red" = "fill:red" := by decide
example : fillSub "#FFFFFF" "fill:a b;" = "fill:a b;" := by decide
example : fillSub "#FFFFFF" "xfill:red;" = "xfill:#FFFFFF;" := by decide
example : fillSub "#FFFFFF" "fill:red;fill:blue;" = "fill:#FFFFFF;fill:#FFFFFF;" := by decide
example : fillSub "#FFFFFF" "opacity:1;fill:red;" = "opacity:1;fill:#FFFFFF;" := by decide

/-- Does `hay` start with `needle`? -/
def leadsWith : List Char → List Char → Bool
  | [], _ => true
  | _ :: _, [] => false
  | a :: as, b :: bs => a = b && leadsWith as bs

/-- Does `hay` contain `needle` as a contiguous run? -/
def containsL (needle : List Char) : List Char → Bool
  | [] => leadsWith needle []
  | c :: rest => leadsWith needle (c :: rest) || containsL needle rest

/-! ## Recoloring a detached subtree

`element.iter()` yields the element and every descendant; for each node the
loop body either rewrites the `fill` value inside an existing `style`
attribute via the regex, or installs `style="fill:<color>;"`. -/

/-- The style-attribute rewrite applied to one node's attribute list. -/
def recolorAttrs (color : String) (a : List (String × String)) : List (String × String) :=
  match attrLookup a "style" with
  | some s => setAttr a "style" (fillSub color s)
  | none => a ++ [("style", "fill:" ++ color ++ ";")]

mutual

/-- Recoloring of a whole subtree: the `for child in element.iter()` loop. -/
def recolorElem (color : String) : Elem → Elem
  | .mk t a ch => .mk t (recolorAttrs color a) (recolorList color ch)

def recolorList (color : String) : List Elem → List Elem
  | [] => []
  | c :: cs => recolorElem color c :: recolorList color cs

end

/-! ## Python float arithmetic, exactly

`(1 - FRAC) * width / 2` is evaluated by CPython in IEEE-754 binary64:
every literal and every intermediate result is rounded to the nearest
representable value (ties to even, 53-bit significand).  Binary64 values in
the normal range are rationals `m * 2^e` with `2^52 ≤ |m| < 2^53`, so the
arithmetic is embedded exactly with an explicit rounding step after each
operation.  Rationals are carried as numerator/denominator pairs (`QR`,
denominator kept positive, not necessarily reduced) so that every operation
is plain integer arithmetic.  Exponent-range effects (overflow, subnormals)
are outside the magnitudes reached here and are not modelled. -/

/-- An exact rational carried as a numerator/denominator pair; the
denominator is positive in every value built below. -/
structure QR where
  n : ℤ
  d : ℤ
deriving DecidableEq

def QR.ofInt (i : ℤ) : QR := ⟨i, 1⟩

def qMul (x y : QR) : QR := ⟨x.n * y.n, x.d * y.d⟩

def qSub (x y : QR) : QR := ⟨x.n * y.d - y.n * x.d, x.d * y.d⟩

def qNeg (x : QR) : QR := ⟨-x.n, x.d⟩

/-- Division, keeping the denominator positive. -/
def qDivQ (x y : QR) : QR :=
  if y.n < 0 then ⟨-(x.n * y.d), x.d * -y.n⟩ else ⟨x.n * y.d, x.d * y.n⟩

/-- Reciprocal, keeping the denominator positive. -/
def qInv (x : QR) : QR :=
  if x.n < 0 then ⟨-x.d, -x.n⟩ else ⟨x.d, x.n⟩

/-- Value comparison (denominators positive). -/
def qLt (x y : QR) : Bool := x.n * y.d < y.n * x.d

def qLe (x y : QR) : Bool := x.n * y.d ≤ y.n * x.d

/-- Value equality (denominators positive). -/
def qEqv (x y : QR) : Bool := x.n * y.d = y.n * x.d

def qAbsQ (x : QR) : QR := if x.n < 0 then qNeg x else x

def qfloor (x : QR) : ℤ := Int.fdiv x.n x.d

def qceil (x : QR) : ℤ := -qfloor (qNeg x)

/-- `Nat.log`-style floor logarithm with explicit fuel (so that it reduces
inside the kernel); `natLogF b n n` is `⌊log b n⌋` for `1 < b ≤ n`. -/
def natLogF (b : ℕ) : ℕ → ℕ → ℕ
  | 0, _ => 0
  | fuel + 1, n => if 1 < b ∧ b ≤ n then natLogF b fuel (n / b) + 1 else 0

/-- Ceiling logarithm with explicit fuel: `natClogF b n n` is `⌈log b n⌉`. -/
def natClogF (b : ℕ) : ℕ → ℕ → ℕ
  | 0, _ => 0
  | fuel + 1, n => if 1 < b ∧ 1 < n then natClogF b fuel ((n + b - 1) / b) + 1 else 0

/-- `⌊log b q⌋` for a positive rational `q`. -/
def intLog (b : ℕ) (q : QR) : ℤ :=
  if qLe (QR.ofInt 1) q then (natLogF b (qfloor q).toNat (qfloor q).toNat : ℤ)
  else -(natClogF b (qceil (qInv q)).toNat (qceil (qInv q)).toNat : ℤ)

def pow2 (e : ℤ) : QR :=
  if 0 ≤ e then ⟨(2 ^ e.toNat : ℕ), 1⟩ else ⟨1, (2 ^ (-e).toNat : ℕ)⟩

def pow10 (e : ℤ) : QR :=
  if 0 ≤ e then ⟨(10 ^ e.toNat : ℕ), 1⟩ else ⟨1, (10 ^ (-e).toNat : ℕ)⟩

/-- Round a positive rational to the nearest binary64 value: scale into the
53-bit significand range, round to the nearest integer with ties to even,
scale back. -/
def roundFPpos (q : QR) : QR :=
  let e : ℤ := intLog 2 q - 52
  let m : QR := qDivQ q (pow2 e)
  let lo : ℤ := qfloor m
  let r : QR := qSub m (QR.ofInt lo)
  let n : ℤ :=
    if qLt r ⟨1, 2⟩ then lo
    else if qLt ⟨1, 2⟩ r then lo + 1
    else if lo % 2 = 0 then lo else lo + 1
  qMul (QR.ofInt n) (pow2 e)

/-- Round a rational to the nearest binary64 value. -/
def roundFP (q : QR) : QR :=
  if q.n = 0 then ⟨0, 1⟩
  else if q.n < 0 then qNeg (roundFPpos (qNeg q))
  else roundFPpos q

/-- The Python literal `FRAC = 0.7`: the binary64 value nearest to 7/10. -/
def FRACf : QR := roundFP ⟨7, 10⟩

/-- The binary64 evaluation of `(1 - FRAC) * d / 2` (each operation
rounded), the half-gap for a declared dimension `d`. -/
def gapF (d : ℕ) : QR :=
  roundFP (qDivQ (roundFP (qMul (roundFP (qSub (QR.ofInt 1) FRACf)) (roundFP ⟨(d : ℤ), 1⟩))) ⟨2, 1⟩)

example : qEqv FRACf ⟨3152519739159347, 4503599627370496⟩ = true := by decide
example : qEqv (roundFP (qSub (QR.ofInt 1) FRACf)) ⟨1351079888211149, 4503599627370496⟩ = true := by
  decide
example : qEqv (gapF 24) ⟨4053239664633447, 1125899906842624⟩ = true := by decide

/-! ## `str(float)`: shortest round-tripping decimal

CPython's `repr`/`str` of a float emits the decimal string with the fewest
significant digits that parses back (by nearest rounding) to exactly the
same binary64 value, formatted in fixed notation when the decimal exponent
lies in `[-4, 16)` and in scientific notation otherwise. -/

/-- The best `k`-significant-digit decimal candidate for `q`: the mantissa
and decimal exponent of the `k`-digit decimal nearest to `q` among those
that round back to exactly `q`, if any. -/
def shortestAt (q : QR) (k : ℕ) : Option (ℤ × ℤ) :=
  let exp : ℤ := intLog 10 q - (k : ℤ) + 1
  let lo : ℤ := qfloor (qDivQ q (pow10 exp))
  match [lo, lo + 1].filter (fun m => qEqv (roundFP (qMul (QR.ofInt m) (pow10 exp))) q) with
  | [] => none
  | [m] => some (m, exp)
  | m :: m' :: _ =>
    if qLt (qAbsQ (qSub q (qMul (QR.ofInt m') (pow10 exp))))
        (qAbsQ (qSub q (qMul (QR.ofInt m) (pow10 exp)))) then some (m', exp)
    else some (m, exp)

/-- Mantissa and decimal exponent of the shortest round-tripping decimal
form of the binary64 value `q` (17 significant digits always suffice). -/
def shortestDec (q : QR) : ℤ × ℤ :=
  match (List.range 17).findSome? (fun i => shortestAt q (i + 1)) with
  | some p => p
  | none => (qfloor (qDivQ q (pow10 (intLog 10 q - 16))), intLog 10 q - 16)

/-- Fixed-notation rendering of `n * 10^exp`. -/
def decString (n : ℕ) (exp : ℤ) : String :=
  let ds := Nat.repr n
  let pointPos : ℤ := (ds.length : ℤ) + exp
  if 0 < pointPos then
    if pointPos < (ds.length : ℤ) then
      ⟨ds.data.take pointPos.toNat⟩ ++ "." ++ ⟨ds.data.drop pointPos.toNat⟩
    else
      ds ++ ⟨List.replicate (pointPos - (ds.length : ℤ)).toNat '0'⟩ ++ ".0"
  else
    "0." ++ ⟨List.replicate (-pointPos).toNat '0'⟩ ++ ds

/-- Scientific-notation rendering (`d.ddde±XX`), as CPython formats it. -/
def sciString (ds : String) (e10 : ℤ) : String :=
  let mant := if ds.length = 1 then ds else ⟨ds.data.take 1⟩ ++ "." ++ ⟨ds.data.drop 1⟩
  let a := (if e10 < 0 then -e10 else e10).toNat
  let de := Nat.repr a
  mant ++ "e" ++ (if e10 < 0 then "-" else "+") ++ (if a < 10 then "0" ++ de else de)

def pyReprPos (q : QR) : String :=
  let p := shortestDec q
  let ds := Nat.repr p.1.toNat
  let e10 : ℤ := (ds.length : ℤ) + p.2 - 1
  if e10 < -4 ∨ 16 ≤ e10 then sciString ds e10 else decString p.1.toNat p.2

/-- `str(x)` for a binary64 value `x` represented by the exact rational
`q`. -/
def pyReprFloat (q : QR) : String :=
  if q.n = 0 then "0.0" else if q.n < 0 then "-" ++ pyReprPos (qNeg q) else pyReprPos q

example : pyReprFloat FRACf = "0.7" := by decide
example : pyReprFloat (gapF 24) = "3.6000000000000005" := by decide
example : pyReprFloat (gapF 48) = "7.200000000000001" := by decide
example : pyReprFloat (gapF 10) = "1.5000000000000002" := by decide

/-- The f-string `f"matrix({FRAC},0,0,{FRAC},{width_gap},{height_gap})"`. -/
def matrixAttr (w h : ℕ) : String :=
  "matrix(" ++ pyReprFloat FRACf ++ ",0,0," ++ pyReprFloat FRACf ++ ","
    ++ pyReprFloat (gapF w) ++ "," ++ pyReprFloat (gapF h) ++ ")"

example : matrixAttr 24 24 = "matrix(0.7,0,0,0.7,3.6000000000000005,3.6000000000000005)" := by
  decide

/-! ## The document transform

`root.findall("svg:*", ...)` snapshots the direct children living in the
SVG namespace (the parser stores tags Clark-style, so these are the
children whose tag starts with `{http://www.w3.org/2000/svg}`).  A fresh
`<g>` element is appended to the root, then the loop walks the snapshot:
children whose tag ends with `defs` or `metadata` are skipped; every other
snapshot child is removed from the root (CPython removes by object
identity, so exactly that occurrence disappears), its whole subtree is
recolored, and it is appended to the group.  Finally the group's
`transform` attribute is set. -/

def SVG_URI : String := "http://www.w3.org/2000/svg"

/-- Membership in the `root.findall("svg:*")` snapshot. -/
def svgB (e : Elem) : Bool := leadsWith ("\x7b" ++ SVG_URI ++ "\x7d").data e.tag.data

/-- `any(map(element.tag.endswith, ["defs", "metadata"]))`. -/
def skipB (e : Elem) : Bool :=
  leadsWith "defs".data.reverse e.tag.data.reverse
    || leadsWith "metadata".data.reverse e.tag.data.reverse

/-- A direct child is detached into the wrapper group iff it is in the
snapshot and not skipped. -/
def movedB (e : Elem) : Bool := svgB e && !skipB e

/-- `list.remove(x)`: drop the first occurrence of `x`. -/
def removeFirst : List Elem → Elem → List Elem
  | [], _ => []
  | a :: as, x => if a = x then as else a :: removeFirst as x

/-- One iteration of the `for element in elements` loop on the state
(children of root, children of group). -/
def grpStep (color : String) (st : List Elem × List Elem) (e : Elem) : List Elem × List Elem :=
  if skipB e then st
  else (removeFirst st.1 e, st.2 ++ [recolorElem color e])

/-- The whole transform on the root element: run the loop over the
`findall` snapshot, then attach the wrapper group (created before the loop
and therefore sitting after all remaining children) carrying the padding
transform for the declared integer dimensions `w`, `h`. -/
def applyTransform (color : String) (w h : ℕ) (root : Elem) : Elem :=
  let elements := root.children.filter svgB
  let st := elements.foldl (grpStep color) (root.children, [])
  .mk root.tag root.attrib (st.1 ++ [.mk "g" [("transform", matrixAttr w h)] st.2])

/-! ## Error propagation and the renderer invoker -/

/-- The Python exceptions the conversion can raise:
`KeyError` from `root.attrib["width"/"height"]` on a missing attribute,
`ValueError` from `int("")` when the attribute has no digit,
`IndexError` from `re.findall(...)[0]` when the version probe output has no
`Inkscape <version>` token, `UnboundLocalError` from `arguments.extend`
when neither version branch assigned `arguments`, and `FileNotFoundError`
from `subprocess.Popen` when the executable is absent. -/
inductive PyErr where
  | keyError
  | valueError
  | indexError
  | unboundLocalError
  | fileNotFoundError
deriving DecidableEq

/-- `int_ignore_units(root.attrib["width"]), int_ignore_units(root.attrib["height"])`,
with Python's left-to-right evaluation order of the tuple. -/
def getSize (root : Elem) : Except PyErr (ℕ × ℕ) :=
  match getAttr root "width" with
  | none => .error .keyError
  | some ws =>
    match int_ignore_units ws with
    | none => .error .valueError
    | some w =>
      match getAttr root "height" with
      | none => .error .keyError
      | some hs =>
        match int_ignore_units hs with
        | none => .error .valueError
        | some h => .ok (w, h)

/-- The whole document transform: extract the canvas size, then regroup,
recolor and attach the padding transform. -/
def transformRoot (color : String) (root : Elem) : Except PyErr Elem :=
  match getSize root with
  | .error e => .error e
  | .ok (w, h) => .ok (applyTransform color w h root)

/-- First match of `re.findall(r"(?<=Inkscape )[.\d]+", s)`: scan for a
position preceded by `Inkscape ` whose character is a digit or dot, and
take the maximal such run (`prev` is the scanned prefix, reversed). -/
def findVersionAux : List Char → List Char → Option (List Char)
  | _, [] => none
  | prev, c :: rest =>
    if prev.take 9 = [' ', 'e', 'p', 'a', 'c', 's', 'k', 'n', 'I'] ∧ (c.isDigit || c = '.') then
      some ((c :: rest).takeWhile (fun x => x.isDigit || x = '.'))
    else findVersionAux (c :: prev) rest

def findVersion (s : String) : Option (List Char) := findVersionAux [] s.data

example : findVersion "Inkscape 1.0.2 (e86c870, 2021-01-15)" = some ['1', '.', '0', '.', '2'] := by
  decide
example : findVersion "Inkscape 0.92.5" = some ['0', '.', '9', '2', '.', '5'] := by decide
example : findVersion "" = none := by decide
example : findVersion "bash: inkscape: command not found" = none := by decide

/-- The version-conditioned argument shape: `version[0] == "1"` selects
`--export-filename=<dst>`, `version[0] == "0"` selects
`--without-gui --export-png=<dst>`; any other leading character leaves
`arguments` unassigned (`none`). -/
def buildArguments (dst : String) : List Char → Option (List String)
  | '1' :: _ => some ["--export-filename=" ++ dst]
  | '0' :: _ => some ["--without-gui", "--export-png=" ++ dst]
  | _ => none

/-- `arguments.extend([TEMPFILE, "-w", "72"])` after the version branch. -/
def fullArguments (dst : String) (version : List Char) : Option (List String) :=
  (buildArguments dst version).map (fun a => a ++ ["temp.svg", "-w", "72"])

/-- The state of the world the subprocess calls interact with: the text the
version probe `inkscape --version 2>/dev/null` writes to stdout (empty when
the executable is absent, since stderr is discarded), whether
`subprocess.Popen(["inkscape", ...])` finds the executable, and the exit
code the renderer returns when it runs. -/
structure Env where
  versionOutput : String
  rendererPresent : Bool
  exitCode : ℤ

/-- What a run of `inkscape_convert_svg2png` leaves behind: the returned
exit code or the Python exception that escaped, the document that was
serialized into `temp.svg` (if the run got that far), whether `temp.svg`
still exists when the run ends, and whether the renderer process launch
was ever attempted. -/
structure Outcome where
  result : Except PyErr ℤ
  tempWritten : Option Elem
  tempExists : Bool
  launchAttempted : Bool

/-- `inkscape_convert_svg2png(color, src, dst)` with the parsed source
document `root` and the subprocess environment `env`: parse the canvas
size, transform and write `temp.svg`, probe the version, build the
argument list, launch the renderer, and finally `os.remove(TEMPFILE)` and
return the renderer's exit code.  The `os.remove` is straight-line code,
not a `finally` block: any exception raised earlier leaves `temp.svg` in
place. -/
def convert (color dst : String) (root : Elem) (env : Env) : Outcome :=
  match getSize root with
  | .error e => ⟨.error e, none, false, false⟩
  | .ok (w, h) =>
    let doc := applyTransform color w h root
    match findVersion env.versionOutput with
    | none => ⟨.error .indexError, some doc, true, false⟩
    | some v =>
      match fullArguments dst v with
      | none => ⟨.error .unboundLocalError, some doc, true, false⟩
      | some _ =>
        if env.rendererPresent then ⟨.ok env.exitCode, some doc, false, true⟩
        else ⟨.error .fileNotFoundError, some doc, true, true⟩

/-! ## Structural lemmas -/

/-- The style value a node of the detached subtree ends up with, as a
function of the style value it had. -/
def newStyle (color : String) : Option String → String
  | none => "fill:" ++ color ++ ";"
  | some s => fillSub color s

def exbeq : Except PyErr ℤ → Except PyErr ℤ → Bool
  | .ok a, .ok b => a == b
  | .error a, .error b => a == b
  | .ok _, .error _ => false
  | .error _, .ok _ => false

theorem exbeq_iff (x y : Except PyErr ℤ) : exbeq x y = true ↔ x = y := by
  cases x <;> cases y <;> simp [exbeq]

instance : DecidableEq (Except PyErr ℤ) := fun x y => decidable_of_iff _ (exbeq_iff x y)

theorem lookup_mapSet (k v : String) :
    ∀ a : List (String × String), a.any (fun p => p.1 == k) = true →
      attrLookup (a.map (fun p => if p.1 == k then (k, v) else p)) k = some v
  | [], h => by simp at h
  | p :: as, h => by
    cases hp : p.1 == k with
    | true =>
      unfold attrLookup
      rw [List.map_cons, if_pos hp,
        @List.find?_cons_of_pos _ (fun p => p.1 == k) (k, v) _ (by simp)]
      rfl
    | false =>
      have h' : as.any (fun p => p.1 == k) = true := by
        rw [List.any_cons, hp, Bool.false_or] at h
        exact h
      unfold attrLookup
      rw [List.map_cons, if_neg (by simp [hp]),
        @List.find?_cons_of_neg _ (fun p => p.1 == k) p _ (by simp [hp])]
      exact lookup_mapSet k v as h'

theorem lookup_none_append (k : String) (l : List (String × String)) :
    ∀ a : List (String × String), attrLookup a k = none →
      attrLookup (a ++ l) k = attrLookup l k
  | [], _ => rfl
  | p :: as, h => by
    cases hp : p.1 == k with
    | true =>
      exfalso
      unfold attrLookup at h
      rw [@List.find?_cons_of_pos _ (fun p => p.1 == k) p as hp] at h
      simp at h
    | false =>
      unfold attrLookup at h ⊢
      rw [@List.find?_cons_of_neg _ (fun p => p.1 == k) p as (by simp [hp])] at h
      rw [List.cons_append,
        @List.find?_cons_of_neg _ (fun p => p.1 == k) p _ (by simp [hp])]
      exact lookup_none_append k l as h

theorem lookup_some_any (k s : String) :
    ∀ a : List (String × String), attrLookup a k = some s →
      a.any (fun p => p.1 == k) = true
  | [], h => by
    unfold attrLookup at h
    simp at h
  | p :: as, h => by
    cases hp : p.1 == k with
    | true => rw [List.any_cons, hp, Bool.true_or]
    | false =>
      unfold attrLookup at h
      rw [@List.find?_cons_of_neg _ (fun p => p.1 == k) p as (by simp [hp])] at h
      rw [List.any_cons, hp, Bool.false_or]
      exact lookup_some_any k s as h

theorem attrLookup_setAttr (a : List (String × String)) (k v s : String)
    (h : attrLookup a k = some s) : attrLookup (setAttr a k v) k = some v := by
  unfold setAttr
  rw [if_pos (lookup_some_any k s a h)]
  exact lookup_mapSet k v a (lookup_some_any k s a h)

/-- The per-node effect of the recolor loop body on the style attribute. -/
theorem attrLookup_recolorAttrs (color : String) (a : List (String × String)) :
    attrLookup (recolorAttrs color a) "style" = some (newStyle color (attrLookup a "style")) := by
  unfold recolorAttrs newStyle
  cases h : attrLookup a "style" with
  | none =>
    rw [lookup_none_append _ _ a h]
    unfold attrLookup
    rw [@List.find?_cons_of_pos _ (fun p => p.1 == "style") ("style", "fill:" ++ color ++ ";") []
      (by simp)]
    rfl
  | some s => exact attrLookup_setAttr a "style" _ s h

theorem recolorList_eq_map (color : String) :
    ∀ l : List Elem, recolorList color l = l.map (recolorElem color)
  | [] => by rw [recolorList, List.map_nil]
  | c :: cs => by rw [recolorList, List.map_cons, recolorList_eq_map color cs]

theorem removeFirst_cons_self (l : List Elem) (x : Elem) : removeFirst (x :: l) x = l := by
  simp [removeFirst]

theorem removeFirst_append_of_ne (x : Elem) (l : List Elem) :
    ∀ pre : List Elem, (∀ y ∈ pre, y ≠ x) →
      removeFirst (pre ++ l) x = pre ++ removeFirst l x
  | [], _ => rfl
  | a :: as, h => by
    have ha : a ≠ x := h a (List.mem_cons_self a as)
    rw [List.cons_append]
    simp only [removeFirst, if_neg ha]
    rw [removeFirst_append_of_ne x l as (fun y hy => h y (List.mem_cons_of_mem a hy)),
      List.cons_append]

/-- The `for element in elements` loop, characterized: starting from a
prefix `pre` of already-kept (non-moved) children, it keeps the non-moved
children in place and appends the recolored moved children to the group in
document order. -/
theorem foldGrp (color : String) :
    ∀ (children pre acc : List Elem), (∀ x ∈ pre, movedB x = false) →
      (children.filter svgB).foldl (grpStep color) (pre ++ children, acc) =
        (pre ++ children.filter (fun c => !movedB c),
          acc ++ (children.filter movedB).map (recolorElem color))
  | [], pre, acc, _ => by simp
  | c :: cs, pre, acc, h => by
    cases hsvg : svgB c with
    | false =>
      have hmov : movedB c = false := by simp [movedB, hsvg]
      have h' : ∀ x ∈ pre ++ [c], movedB x = false := by
        intro x hx
        rcases List.mem_append.mp hx with hx | hx
        · exact h x hx
        · simpa [List.mem_singleton.mp hx] using hmov
      have ih := foldGrp color cs (pre ++ [c]) acc h'
      simp only [List.append_assoc, List.singleton_append] at ih
      rw [@List.filter_cons_of_neg _ svgB c cs (by simp [hsvg]),
        @List.filter_cons_of_pos _ (fun c => !movedB c) c cs (by simp [hmov]),
        @List.filter_cons_of_neg _ movedB c cs (by simp [hmov])]
      exact ih
    | true =>
      cases hskip : skipB c with
      | true =>
        have hmov : movedB c = false := by simp [movedB, hskip]
        have h' : ∀ x ∈ pre ++ [c], movedB x = false := by
          intro x hx
          rcases List.mem_append.mp hx with hx | hx
          · exact h x hx
          · simpa [List.mem_singleton.mp hx] using hmov
        have ih := foldGrp color cs (pre ++ [c]) acc h'
        simp only [List.append_assoc, List.singleton_append] at ih
        rw [@List.filter_cons_of_pos _ svgB c cs hsvg, List.foldl_cons,
          show grpStep color (pre ++ c :: cs, acc) c = (pre ++ c :: cs, acc) by
            unfold grpStep
            rw [hskip]
            exact if_pos rfl,
          @List.filter_cons_of_pos _ (fun c => !movedB c) c cs (by simp [hmov]),
          @List.filter_cons_of_neg _ movedB c cs (by simp [hmov])]
        exact ih
      | false =>
        have hmov : movedB c = true := by simp [movedB, hsvg, hskip]
        have hne : ∀ y ∈ pre, y ≠ c := by
          intro y hy hyc
          rw [hyc] at hy
          rw [h c hy] at hmov
          exact Bool.false_ne_true hmov
        have ih := foldGrp color cs pre (acc ++ [recolorElem color c]) h
        simp only [List.append_assoc, List.singleton_append] at ih
        rw [@List.filter_cons_of_pos _ svgB c cs hsvg, List.foldl_cons,
          show grpStep color (pre ++ c :: cs, acc) c
              = (pre ++ cs, acc ++ [recolorElem color c]) by
            unfold grpStep
            rw [hskip]
            rw [if_neg (by simp)]
            rw [removeFirst_append_of_ne c (c :: cs) pre hne, removeFirst_cons_self],
          @List.filter_cons_of_neg _ (fun c => !movedB c) c cs (by simp [hmov]),
          @List.filter_cons_of_pos _ movedB c cs hmov, List.map_cons]
        exact ih

/-- The transformed root, in closed form: the non-moved children stay in
order, followed by the wrapper group holding the recolored moved children. -/
theorem applyTransform_eq (color : String) (w h : ℕ) (root : Elem) :
    applyTransform color w h root =
      .mk root.tag root.attrib
        (root.children.filter (fun c => !movedB c)
          ++ [.mk "g" [("transform", matrixAttr w h)]
                ((root.children.filter movedB).map (recolorElem color))]) := by
  have hfold := foldGrp color root.children [] [] (by intro x hx; cases hx)
  simp only [List.nil_append] at hfold
  simp only [applyTransform]
  rw [hfold]

/-- Tree navigation by child indices. -/
def getNode : List ℕ → Elem → Option Elem
  | [], e => some e
  | i :: p, e =>
    match e.children[i]? with
    | some c => getNode p c
    | none => none

/-- Recoloring commutes with navigation: the node at path `p` of the
recolored subtree is the recolored node at path `p` of the original. -/
theorem getNode_recolor (color : String) :
    ∀ (p : List ℕ) (e x : Elem), getNode p e = some x →
      getNode p (recolorElem color e) =
        some (.mk x.tag (recolorAttrs color x.attrib) (recolorList color x.children))
  | [], e, x, hx => by
    cases e with
    | mk t a ch =>
      simp only [getNode, Option.some.injEq] at hx
      subst hx
      rfl
  | i :: p, e, x, hx => by
    cases e with
    | mk t a ch =>
      cases hc : ch[i]? with
      | none => simp [getNode, Elem.children, hc] at hx
      | some c =>
        simp only [getNode, Elem.children, hc] at hx
        simp only [recolorElem, getNode, Elem.children]
        rw [recolorList_eq_map, List.getElem?_map, hc, Option.map_some']
        exact getNode_recolor color p c x hx

/-! ## Lemmas about the fill regex -/

def fillStr : List Char := ['f', 'i', 'l', 'l', ':']

theorem leadsWith_append_self : ∀ n b : List Char, leadsWith n (n ++ b) = true
  | [], _ => rfl
  | a :: as, b => by
    simp [leadsWith, leadsWith_append_self as b]

theorem containsL_of_leadsWith (n hay : List Char) (h : leadsWith n hay = true) :
    containsL n hay = true := by
  cases hay with
  | nil => exact h
  | cons c r =>
    unfold containsL
    rw [h, Bool.true_or]

theorem containsL_append_self : ∀ a n b : List Char, containsL n (a ++ (n ++ b)) = true
  | [], n, b => containsL_of_leadsWith n ([] ++ (n ++ b)) (leadsWith_append_self n b)
  | x :: a', n, b => by
    rw [List.cons_append]
    unfold containsL
    rw [containsL_append_self a' n b, Bool.or_true]

/-- If the regex lookbehind window shows `fill:`, the original string
contains `fill:`. -/
theorem take5_contains (prev rest : List Char) (h : prev.take 5 = [':', 'l', 'l', 'i', 'f']) :
    containsL fillStr (prev.reverse ++ rest) = true := by
  have hsplit : prev = [':', 'l', 'l', 'i', 'f'] ++ prev.drop 5 := by
    conv_lhs => rw [← List.take_append_drop 5 prev, h]
  conv_lhs => rw [hsplit]
  rw [List.reverse_append, List.append_assoc,
    show ([':', 'l', 'l', 'i', 'f'] : List Char).reverse = fillStr from rfl]
  exact containsL_append_self (prev.drop 5).reverse fillStr rest

/-- A string containing no `fill:` is scanned unchanged. -/
theorem fillSubAux_id (color : List Char) :
    ∀ (fuel : ℕ) (prev rest : List Char), rest.length ≤ fuel →
      containsL fillStr (prev.reverse ++ rest) = false →
      fillSubAux color fuel prev rest = rest
  | 0, _, rest, hf, _ => by
    cases rest with
    | nil => rfl
    | cons c rs => simp at hf
  | _ + 1, _, [], _, _ => rfl
  | fuel + 1, prev, c :: rs, hf, hcon => by
    have hck : ¬ prev.take 5 = [':', 'l', 'l', 'i', 'f'] := by
      intro hk
      have := take5_contains prev (c :: rs) hk
      rw [hcon] at this
      exact Bool.false_ne_true this
    have hcon' : containsL fillStr ((c :: prev).reverse ++ rs) = false := by
      rw [List.reverse_cons, List.append_assoc, List.singleton_append]
      exact hcon
    simp only [fillSubAux, if_neg hck]
    rw [fillSubAux_id color fuel (c :: prev) rs (Nat.le_of_succ_le_succ hf) hcon']

theorem fillSub_no_fill (color s : String) (h : containsL fillStr s.data = false) :
    fillSub color s = s := by
  cases s with
  | mk d =>
    show String.mk (fillSubAux color.data d.length [] d) = String.mk d
    rw [fillSubAux_id color.data d.length [] d (Nat.le_refl _) h]

/-! ## Concrete documents, and observers used in concrete statements -/

/-- Clark-style tag in the SVG namespace, as the parser stores it. -/
def svgNS (s : String) : String := "\x7b" ++ SVG_URI ++ "\x7d" ++ s

/-- A 24x24 icon whose single visible child carries `style="stroke:red;"`,
a style with no `fill` declaration at all. -/
def doc24 : Elem :=
  .mk (svgNS "svg") [("width", "24"), ("height", "24")]
    [.mk (svgNS "path") [("d", "M0 0h24v24H0z"), ("style", "stroke:red;")] []]

/-- A 24x24 document whose only child is a `defs` element (with a styled
descendant), so nothing is detached into the wrapper group. -/
def docDefs : Elem :=
  .mk (svgNS "svg") [("width", "24"), ("height", "24")]
    [.mk (svgNS "defs") [("id", "d0")]
      [.mk (svgNS "linearGradient") [("style", "stop-color:red;")] []]]

/-- A document with `width` present but digitless and `height` absent. -/
def docMixed : Elem := .mk (svgNS "svg") [("width", "px")] []

/-- A visible child used to exercise the per-node recoloring. -/
def pathRB : Elem := .mk (svgNS "path") [("style", "fill:red;stroke:blue;")] []

/-- The tag of the node at path `p` of the transformed document. -/
def tagAtPath (color : String) (root : Elem) (p : List ℕ) : Option String :=
  match transformRoot color root with
  | .error _ => none
  | .ok e => (getNode p e).map Elem.tag

/-- The style attribute of the node at path `p` of the transformed
document. -/
def styleAtPath (color : String) (root : Elem) (p : List ℕ) : Option String :=
  match transformRoot color root with
  | .error _ => none
  | .ok e =>
    match getNode p e with
    | none => none
    | some y => attrLookup y.attrib "style"

/-- The `transform` attribute of the last direct child (the wrapper group)
of the transformed document. -/
def transformAttrAt (color : String) (root : Elem) : Option String :=
  match transformRoot color root with
  | .error _ => none
  | .ok e =>
    match e.children.getLast? with
    | none => none
    | some g => attrLookup g.attrib "transform"

/-! ## The claims -/

/-- C1 (counterexample): on `doc24` the moved child (path `[0, 0]`, inside
the wrapper group at path `[0]`) ends the conversion with style
`stroke:red;`, which contains no `fill:` at all — so it does not carry an
explicit fill declaration equal to the target color, refuting the claim's
universal guarantee. -/
theorem C1_counterexample :
    tagAtPath "#FFFFFF" doc24 [0] = some "g" ∧
    styleAtPath "#FFFFFF" doc24 [0, 0] = some "stroke:red;" ∧
    containsL fillStr "stroke:red;".data = false := by
  refine ⟨by decide, by decide, by decide⟩

/-- C1 (amended): every element of the detached subtree gets its style
rewritten as follows — a node without a style attribute gets exactly
`fill:<color>;`; a node with style `s` gets `fillSub color s`, which
replaces each lazily-matched non-whitespace run between `fill:` and a
following `;` and in particular leaves `s` unchanged (creating no fill
declaration) when `s` contains no `fill:` substring. -/
theorem C1_recolor_amended (color : String) :
    (∀ (w h : ℕ) (root : Elem), getSize root = .ok (w, h) →
        (applyTransform color w h root).children =
          root.children.filter (fun c => !movedB c)
            ++ [.mk "g" [("transform", matrixAttr w h)]
                  ((root.children.filter movedB).map (recolorElem color))]) ∧
    (∀ (p : List ℕ) (e x : Elem), getNode p e = some x →
        (getNode p (recolorElem color e)).map (fun y => attrLookup y.attrib "style")
          = some (some (newStyle color (attrLookup x.attrib "style")))) ∧
    (∀ s : String, containsL fillStr s.data = false → fillSub color s = s) := by
  refine ⟨?_, ?_, ?_⟩
  · intro w h root _
    rw [applyTransform_eq]
    rfl
  · intro p e x hx
    rw [getNode_recolor color p e x hx]
    simp only [Option.map_some', Elem.attrib]
    rw [attrLookup_recolorAttrs]
  · intro s hs
    exact fillSub_no_fill color s hs

/-- C1 (witness): the amended statement evaluated on a node carrying
`style="fill:red;stroke:blue;"`. -/
theorem C1_witness :
    (getNode [] (recolorElem "#FFFFFF" pathRB)).map (fun y => attrLookup y.attrib "style")
      = some (some (newStyle "#FFFFFF" (attrLookup pathRB.attrib "style"))) :=
  (C1_recolor_amended "#FFFFFF").2.1 [] pathRB pathRB rfl

/-- C2 (counterexample): for W = H = 24 the emitted wrapper transform is
`matrix(0.7,0,0,0.7,3.6000000000000005,3.6000000000000005)` — the Python
float evaluation of `(1-0.7)*24/2` is one ulp above 3.6 — and not the
claimed `matrix(0.7,0,0,0.7,3.6,3.6)`. -/
theorem C2_counterexample :
    matrixAttr 24 24 = "matrix(0.7,0,0,0.7,3.6000000000000005,3.6000000000000005)" ∧
    matrixAttr 24 24 ≠ "matrix(0.7,0,0,0.7,3.6,3.6)" ∧
    transformAttrAt "#FFFFFF" doc24
      = some "matrix(0.7,0,0,0.7,3.6000000000000005,3.6000000000000005)" := by
  refine ⟨by decide, by decide, by decide⟩

/-- C2 (amended): the wrapper group's transform attribute is
`matrix(0.7,0,0,0.7,tx,ty)` where `tx`, `ty` are the IEEE-754 binary64
evaluations of `(1-0.7)*W/2` and `(1-0.7)*H/2` rendered by Python's
shortest round-tripping float repr; for W = 24 that value is
`4053239664633447/2^50`, rendered `3.6000000000000005`, not `3.6`. -/
theorem C2_matrix_amended (color : String) (w h : ℕ) (root : Elem)
    (hsz : getSize root = .ok (w, h)) :
    ((applyTransform color w h root).children.getLast?).map
        (fun g => attrLookup g.attrib "transform") = some (some (matrixAttr w h)) ∧
    matrixAttr w h
      = "matrix(" ++ pyReprFloat FRACf ++ ",0,0," ++ pyReprFloat FRACf ++ ","
          ++ pyReprFloat (gapF w) ++ "," ++ pyReprFloat (gapF h) ++ ")" ∧
    pyReprFloat FRACf = "0.7" ∧
    qEqv (gapF 24) ⟨4053239664633447, 1125899906842624⟩ = true ∧
    pyReprFloat (gapF 24) = "3.6000000000000005" := by
  refine ⟨?_, rfl, by decide, by decide, by decide⟩
  rw [applyTransform_eq]
  show ((root.children.filter (fun c => !movedB c)
      ++ [Elem.mk "g" [("transform", matrixAttr w h)]
            ((root.children.filter movedB).map (recolorElem color))]).getLast?).map
      (fun g => attrLookup g.attrib "transform") = some (some (matrixAttr w h))
  rw [List.getLast?_concat, Option.map_some']
  show some (attrLookup [("transform", matrixAttr w h)] "transform")
    = some (some (matrixAttr w h))
  unfold attrLookup
  rw [@List.find?_cons_of_pos _ (fun p => p.1 == "transform")
    ("transform", matrixAttr w h) [] (by simp)]
  rfl

/-- C2 (witness): the amended statement evaluated on `doc24`. -/
theorem C2_witness :
    ((applyTransform "#FFFFFF" 24 24 doc24).children.getLast?).map
        (fun g => attrLookup g.attrib "transform") = some (some (matrixAttr 24 24)) :=
  (C2_matrix_amended "#FFFFFF" 24 24 doc24 rfl).1

/-- C3: a version whose first character is `'1'` selects
`--export-filename=<dst>`, one whose first character is `'0'` selects
`--without-gui --export-png=<dst>`, and in both cases `temp.svg -w 72` is
appended. -/
theorem C3_argument_shapes (dst s : String) (v : List Char)
    (hv : findVersion s = some v) :
    (∀ rest, v = '1' :: rest →
        fullArguments dst v
          = some ["--export-filename=" ++ dst, "temp.svg", "-w", "72"]) ∧
    (∀ rest, v = '0' :: rest →
        fullArguments dst v
          = some ["--without-gui", "--export-png=" ++ dst, "temp.svg", "-w", "72"]) := by
  constructor <;> rintro rest rfl <;> rfl

/-- C3 (witness): the two spec scenarios, `Inkscape 1.0.2` and
`Inkscape 0.92`. -/
theorem C3_witness :
    fullArguments "icons/home.png" ['1', '.', '0', '.', '2']
      = some ["--export-filename=" ++ "icons/home.png", "temp.svg", "-w", "72"] ∧
    fullArguments "icons/home.png" ['0', '.', '9', '2']
      = some ["--without-gui", "--export-png=" ++ "icons/home.png", "temp.svg", "-w", "72"] :=
  ⟨(C3_argument_shapes "icons/home.png" "Inkscape 1.0.2" _ rfl).1 _ rfl,
   (C3_argument_shapes "icons/home.png" "Inkscape 0.92" _ rfl).2 _ rfl⟩

/-- C4 (counterexample): with the renderer absent the version probe output
is empty, the conversion raises IndexError before any cleanup, and
`temp.svg` is left on disk — an exit path on which the temporary file is
not deleted. -/
theorem C4_counterexample :
    (convert "#FFFFFF" "icons/home.png" doc24 ⟨"", false, 0⟩).tempExists = true ∧
    (convert "#FFFFFF" "icons/home.png" doc24 ⟨"", false, 0⟩).result
      = .error .indexError := by
  refine ⟨by decide, by decide⟩

/-- C4 (amended): on every exit path on which the renderer launch succeeds
and the subprocess completes, `temp.svg` is deleted and the renderer's
(possibly nonzero) exit code is returned rather than an exception; on exit
paths that raise before the launch completes the file is left behind. -/
theorem C4_cleanup_amended (color dst : String) (root : Elem) (env : Env)
    (w h : ℕ) (v : List Char) (args : List String)
    (hsz : getSize root = .ok (w, h))
    (hv : findVersion env.versionOutput = some v)
    (ha : fullArguments dst v = some args)
    (hp : env.rendererPresent = true) :
    (convert color dst root env).result = .ok env.exitCode ∧
    (convert color dst root env).tempExists = false ∧
    (convert color dst root env).launchAttempted = true := by
  simp [convert, hsz, hv, ha, hp]

/-- C4 (witness): a completed renderer run with exit code 1 returns 1 and
removes the temporary file. -/
theorem C4_witness :
    (convert "#FFFFFF" "icons/home.png" doc24 ⟨"Inkscape 1.0.2", true, 1⟩).result = .ok 1 ∧
    (convert "#FFFFFF" "icons/home.png" doc24 ⟨"Inkscape 1.0.2", true, 1⟩).tempExists
      = false := by
  have hh := C4_cleanup_amended "#FFFFFF" "icons/home.png" doc24 ⟨"Inkscape 1.0.2", true, 1⟩
    24 24 ['1', '.', '0', '.', '2']
    ["--export-filename=" ++ "icons/home.png", "temp.svg", "-w", "72"] rfl rfl rfl rfl
  exact ⟨hh.1, hh.2.1⟩

/-- C5: children whose tag ends with `defs` or `metadata` are never moved
(they are kept, unchanged, among the root's direct children, and the
wrapper group is built only from the moved children). -/
theorem C5_defs_untouched (color : String) (w h : ℕ) (root : Elem)
    (hsz : getSize root = .ok (w, h)) :
    (applyTransform color w h root).children =
        root.children.filter (fun c => !movedB c)
          ++ [.mk "g" [("transform", matrixAttr w h)]
                ((root.children.filter movedB).map (recolorElem color))] ∧
    (∀ c : Elem, skipB c = true → movedB c = false) ∧
    (∀ c ∈ root.children, skipB c = true →
        c ∈ (applyTransform color w h root).children
          ∧ c ∉ root.children.filter movedB) := by
  refine ⟨by rw [applyTransform_eq]; rfl, ?_, ?_⟩
  · intro c hc
    simp [movedB, hc]
  · intro c hc hskipc
    constructor
    · rw [applyTransform_eq]
      show c ∈ root.children.filter (fun c => !movedB c)
        ++ [Elem.mk "g" [("transform", matrixAttr w h)]
              ((root.children.filter movedB).map (recolorElem color))]
      exact List.mem_append_left _ (List.mem_filter.mpr ⟨hc, by simp [movedB, hskipc]⟩)
    · intro hmem
      have hmov := (List.mem_filter.mp hmem).2
      simp [movedB, hskipc] at hmov

/-- C5 (witness): the `defs` child of `docDefs`, with its styled
descendant, is still a direct child of the transformed root. -/
theorem C5_witness :
    (Elem.mk (svgNS "defs") [("id", "d0")]
        [.mk (svgNS "linearGradient") [("style", "stop-color:red;")] []])
      ∈ (applyTransform "#FFFFFF" 24 24 docDefs).children :=
  ((C5_defs_untouched "#FFFFFF" 24 24 docDefs rfl).2.2 _
    (List.mem_cons_self _ _) (by decide)).1

/-- C6: digit-stripping extraction ignores any digit-free suffix, and both
`"48px"` and `"48"` parse to 48. -/
theorem C6_units_ignored :
    (∀ l1 l2 : List Char, (∀ c ∈ l2, c.isDigit = false) →
        int_ignore_units ⟨l1 ++ l2⟩ = int_ignore_units ⟨l1⟩) ∧
    int_ignore_units "48px" = some 48 ∧ int_ignore_units "48" = some 48 := by
  refine ⟨?_, by decide, by decide⟩
  intro l1 l2 h2
  have hf : (l1 ++ l2).filter Char.isDigit = l1.filter Char.isDigit := by
    rw [List.filter_append,
      show l2.filter Char.isDigit = [] from
        List.filter_eq_nil_iff.mpr (by intro a ha; simp [h2 a ha]),
      List.append_nil]
  simp only [int_ignore_units, hf]

/-- C6 (witness): the suffix-invariance applied to `"48" ++ "px"`. -/
theorem C6_witness :
    int_ignore_units ⟨"48".data ++ "px".data⟩ = int_ignore_units ⟨"48".data⟩ :=
  C6_units_ignored.1 "48".data "px".data (by decide)

/-- C7 (counterexample): with `width="px"` (present, digitless) and
`height` absent, the conversion raises ValueError — not the
MissingAttributeError (KeyError) the claim requires for a missing height. -/
theorem C7_counterexample :
    getAttr docMixed "height" = none ∧
    (convert "#FFFFFF" "o.png" docMixed ⟨"Inkscape 1.0", true, 0⟩).result
      = .error .valueError ∧
    PyErr.valueError ≠ PyErr.keyError := by
  refine ⟨by decide, by decide, by decide⟩

/-- C7 (amended): the size checks run in order width-lookup, width-parse,
height-lookup, height-parse; a missing attribute raises KeyError
(MissingAttributeError) and a digitless one ValueError (ParseError) at the
first failing check, and in every case the conversion stops before writing
the temporary file or launching the renderer. -/
theorem C7_size_errors_amended (color dst : String) (root : Elem) (env : Env) :
    (getAttr root "width" = none →
        convert color dst root env = ⟨.error .keyError, none, false, false⟩) ∧
    (∀ ws, getAttr root "width" = some ws → int_ignore_units ws = none →
        convert color dst root env = ⟨.error .valueError, none, false, false⟩) ∧
    (∀ ws w, getAttr root "width" = some ws → int_ignore_units ws = some w →
        getAttr root "height" = none →
        convert color dst root env = ⟨.error .keyError, none, false, false⟩) ∧
    (∀ ws w hs, getAttr root "width" = some ws → int_ignore_units ws = some w →
        getAttr root "height" = some hs → int_ignore_units hs = none →
        convert color dst root env = ⟨.error .valueError, none, false, false⟩) := by
  refine ⟨?_, ?_, ?_, ?_⟩
  · intro h1
    simp [convert, getSize, h1]
  · intro ws h1 h2
    simp [convert, getSize, h1, h2]
  · intro ws w h1 h2 h3
    simp [convert, getSize, h1, h2, h3]
  · intro ws w hs h1 h2 h3 h4
    simp [convert, getSize, h1, h2, h3, h4]

/-- C7 (witness): a document with no `width` attribute fails with KeyError
and nothing further happens. -/
theorem C7_witness :
    convert "#FFFFFF" "o.png" (Elem.mk (svgNS "svg") [] []) ⟨"", true, 0⟩
      = ⟨.error .keyError, none, false, false⟩ :=
  (C7_size_errors_amended "#FFFFFF" "o.png" (Elem.mk (svgNS "svg") [] []) ⟨"", true, 0⟩).1 rfl

/-- C8 (counterexample): with the renderer absent (empty probe output) the
conversion surfaces the same IndexError as for any unparsable version
output — there is no distinct RendererNotFoundError — and a parsed version
with unknown major (`Inkscape 2.0.1`) raises UnboundLocalError, not a
dedicated UnsupportedRendererError. -/
theorem C8_counterexample :
    (convert "#FFFFFF" "o.png" doc24 ⟨"", false, 0⟩).result = .error .indexError ∧
    (convert "#FFFFFF" "o.png" doc24 ⟨"no version output here", true, 0⟩).result
      = .error .indexError ∧
    (convert "#FFFFFF" "o.png" doc24 ⟨"", false, 0⟩).launchAttempted = false ∧
    (convert "#FFFFFF" "o.png" doc24 ⟨"Inkscape 2.0.1", true, 0⟩).result
      = .error .unboundLocalError := by
  refine ⟨by decide, by decide, by decide, by decide⟩

/-- C8 (amended): an unparsable probe output (in particular the empty
output produced when the executable is absent) raises IndexError before
any launch attempt; a parsed version starting with neither '0' nor '1'
raises UnboundLocalError before any launch attempt; both are exceptions,
distinct from returning a nonzero exit code. -/
theorem C8_probe_errors_amended (color dst : String) (root : Elem) (env : Env)
    (w h : ℕ) (hsz : getSize root = .ok (w, h)) :
    (findVersion env.versionOutput = none →
        (convert color dst root env).result = .error .indexError ∧
        (convert color dst root env).launchAttempted = false) ∧
    (∀ v, findVersion env.versionOutput = some v → fullArguments dst v = none →
        (convert color dst root env).result = .error .unboundLocalError ∧
        (convert color dst root env).launchAttempted = false) ∧
    (∀ c : ℤ, (Except.error PyErr.indexError : Except PyErr ℤ) ≠ .ok c) := by
  refine ⟨?_, ?_, ?_⟩
  · intro hv
    simp [convert, hsz, hv]
  · intro v hv ha
    simp [convert, hsz, hv, ha]
  · intro c hc
    cases hc

/-- C8 (witness): the amended statement on the absent-renderer
environment. -/
theorem C8_witness :
    (convert "#FFFFFF" "o.png" doc24 ⟨"", false, 0⟩).result = .error .indexError ∧
    (convert "#FFFFFF" "o.png" doc24 ⟨"", false, 0⟩).launchAttempted = false :=
  (C8_probe_errors_amended "#FFFFFF" "o.png" doc24 ⟨"", false, 0⟩ 24 24 rfl).1 rfl

/-- C9: the transform never touches the root's attribute dictionary, so
the declared width and height of the intermediate document equal those of
the source. -/
theorem C9_dimensions_preserved (color : String) (root out : Elem)
    (hok : transformRoot color root = .ok out) :
    getAttr out "width" = getAttr root "width" ∧
    getAttr out "height" = getAttr root "height" ∧
    out.attrib = root.attrib := by
  unfold transformRoot at hok
  cases hsz : getSize root with
  | error e =>
    rw [hsz] at hok
    cases hok
  | ok wh =>
    obtain ⟨w, h⟩ := wh
    rw [hsz] at hok
    injection hok with hok
    subst hok
    rw [applyTransform_eq]
    exact ⟨rfl, rfl, rfl⟩

/-- C9 (witness): the width of the transformed `doc24` is its source
width. -/
theorem C9_witness :
    getAttr (applyTransform "#FFFFFF" 24 24 doc24) "width" = getAttr doc24 "width" :=
  (C9_dimensions_preserved "#FFFFFF" doc24 (applyTransform "#FFFFFF" 24 24 doc24) rfl).1

/-- C10: exactly one new `<g>` wrapper is appended, as last child of the
root, carrying the padding transform; when no child is moved the group is
empty but still present. -/
theorem C10_group_appended (color : String) (w h : ℕ) (root : Elem)
    (hsz : getSize root = .ok (w, h)) :
    (applyTransform color w h root).children =
        root.children.filter (fun c => !movedB c)
          ++ [.mk "g" [("transform", matrixAttr w h)]
                ((root.children.filter movedB).map (recolorElem color))] ∧
    (applyTransform color w h root).children.getLast? =
        some (.mk "g" [("transform", matrixAttr w h)]
          ((root.children.filter movedB).map (recolorElem color))) ∧
    attrLookup [("transform", matrixAttr w h)] "transform" = some (matrixAttr w h) ∧
    (root.children.filter movedB = [] →
        (Elem.mk "g" [("transform", matrixAttr w h)]
            ((root.children.filter movedB).map (recolorElem color))).children = []) := by
  refine ⟨by rw [applyTransform_eq]; rfl, ?_, by simp [attrLookup], ?_⟩
  · rw [applyTransform_eq]
    show (root.children.filter (fun c => !movedB c)
        ++ [Elem.mk "g" [("transform", matrixAttr w h)]
              ((root.children.filter movedB).map (recolorElem color))]).getLast?
      = some (Elem.mk "g" [("transform", matrixAttr w h)]
          ((root.children.filter movedB).map (recolorElem color)))
    rw [List.getLast?_concat]
  · intro hnil
    rw [hnil]
    rfl

/-- C10 (witness): on `docDefs` (no visible children) the wrapper group is
appended empty, still carrying the transform, as the last child. -/
theorem C10_witness :
    (applyTransform "#FFFFFF" 24 24 docDefs).children.getLast? =
      some (.mk "g" [("transform", matrixAttr 24 24)]
        ((docDefs.children.filter movedB).map (recolorElem "#FFFFFF"))) :=
  (C10_group_appended "#FFFFFF" 24 24 docDefs rfl).2.1
